import Mathlib

/-
  Verification development for the img-optimizer HTTP image proxy.

  The Go program (main.go and the file store) is shallowly embedded below:
  pure functions become Lean functions, the effectful request handler becomes
  a pure function over an explicit environment (filesystem map, origin fetch
  oracle, external transcoder oracle) that returns the HTTP response, the
  final filesystem, and a trace of the external effects it performed.
-/

set_option maxRecDepth 100000

/-- Byte strings are lists of byte values (each < 256). -/
abbrev ByteL := List Nat

/-! ## SHA-1 (crypto/sha1) over byte lists, 32-bit words as Nat mod 2^32 -/

def M32 : Nat := 4294967296

/-- Rotate a 32-bit word left by n bits. -/
def rotl32 (n x : Nat) : Nat := ((x <<< n) % M32) ||| (x >>> (32 - n))

/-- Big-endian 4-byte encoding of a 32-bit word. -/
def beBytes4 (x : Nat) : ByteL := [(x >>> 24) % 256, (x >>> 16) % 256, (x >>> 8) % 256, x % 256]

/-- Big-endian 8-byte encoding of a 64-bit value. -/
def beBytes8 (x : Nat) : ByteL := beBytes4 (x >>> 32) ++ beBytes4 x

/-- Group 4 big-endian bytes into one 32-bit word each. -/
def toWords : ByteL → List Nat
  | a :: b :: c :: d :: rest => (((a * 256 + b) * 256 + c) * 256 + d) :: toWords rest
  | _ => []

/-- SHA-1 message schedule extension: append n further words. -/
def sha1extend : Nat → List Nat → List Nat
  | 0, ws => ws
  | n + 1, ws =>
    let i := ws.length
    sha1extend n (ws ++ [rotl32 1 (ws.getD (i - 3) 0 ^^^ ws.getD (i - 8) 0 ^^^ ws.getD (i - 14) 0 ^^^ ws.getD (i - 16) 0)])

/-- SHA-1 round function. -/
def sha1f (t b c d : Nat) : Nat :=
  if t < 20 then (b &&& c) ||| (((M32 - 1) ^^^ b) &&& d)
  else if t < 40 then b ^^^ c ^^^ d
  else if t < 60 then (b &&& c) ||| (b &&& d) ||| (c &&& d)
  else b ^^^ c ^^^ d

/-- SHA-1 round constants. -/
def sha1k (t : Nat) : Nat :=
  if t < 20 then 0x5A827999
  else if t < 40 then 0x6ED9EBA1
  else if t < 60 then 0x8F1BBCDC
  else 0xCA62C1D6

/-- One SHA-1 compression round on the five-word state. -/
def sha1step (ws : List Nat) (t : Nat) (s : Nat × Nat × Nat × Nat × Nat) : Nat × Nat × Nat × Nat × Nat :=
  let (a, b, c, d, e) := s
  ((rotl32 5 a + sha1f t b c d + e + sha1k t + ws.getD t 0) % M32, a, rotl32 30 b, c, d)

/-- Process one 64-byte chunk. -/
def sha1block (h : Nat × Nat × Nat × Nat × Nat) (chunk : ByteL) : Nat × Nat × Nat × Nat × Nat :=
  let ws := sha1extend 64 (toWords chunk)
  let (h0, h1, h2, h3, h4) := h
  let (a, b, c, d, e) := (List.range 80).foldl (fun s t => sha1step ws t s) (h0, h1, h2, h3, h4)
  ((h0 + a) % M32, (h1 + b) % M32, (h2 + c) % M32, (h3 + d) % M32, (h4 + e) % M32)

/-- Fuel-driven split into 64-byte chunks (fuel bounds the recursion depth). -/
def chunksGo (fuel : Nat) (bs : ByteL) : List ByteL :=
  match fuel with
  | 0 => []
  | n + 1 =>
    match bs with
    | [] => []
    | _ => bs.take 64 :: chunksGo n (bs.drop 64)

def chunks64 (bs : ByteL) : List ByteL := chunksGo bs.length bs

/-- SHA-1 padding for a message of the given byte length. -/
def sha1padding (len : Nat) : ByteL :=
  128 :: (List.replicate ((120 - (len + 1) % 64) % 64) 0 ++ beBytes8 (len * 8))

/-- SHA-1 digest (20 bytes) of a byte string. -/
def sha1sum (msg : ByteL) : ByteL :=
  let padded := msg ++ sha1padding msg.length
  let (h0, h1, h2, h3, h4) :=
    (chunks64 padded).foldl sha1block (0x67452301, 0xEFCDAB89, 0x98BADCFE, 0x10325476, 0xC3D2E1F0)
  beBytes4 h0 ++ beBytes4 h1 ++ beBytes4 h2 ++ beBytes4 h3 ++ beBytes4 h4

/-! ## Hex encoding (encoding/hex) and UTF-8 bytes of a string -/

def hexDigit (n : Nat) : Char := if n < 10 then Char.ofNat (48 + n) else Char.ofNat (87 + n)

def byteHex (b : Nat) : String := String.mk [hexDigit (b / 16), hexDigit (b % 16)]

def hexEncode (bs : ByteL) : String := String.join (bs.map byteHex)

/-- UTF-8 encoding of one character, as Go obtains bytes from a string. -/
def utf8EncodeCharM (c : Char) : ByteL :=
  let n := c.toNat
  if n < 128 then [n]
  else if n < 2048 then [192 + n / 64, 128 + n % 64]
  else if n < 65536 then [224 + n / 4096, 128 + (n / 64) % 64, 128 + n % 64]
  else [240 + n / 262144, 128 + (n / 4096) % 64, 128 + (n / 64) % 64, 128 + n % 64]

def utf8Bytes (s : String) : ByteL := (s.data.map utf8EncodeCharM).flatten

/-- Cache key of a request: hex(sha1(path ++ rawQuery)), from handler lines 122-123. -/
def fingerprint (path rawQuery : String) : String :=
  hexEncode (sha1sum (utf8Bytes (path ++ rawQuery)))

/-- Sanity check of the digest embedding against the published SHA-1 test
vector for the string abc. -/
theorem fingerprint_test_vector :
    fingerprint "ab" "c" = "a9993e364706816aba3e25717850c26c9cd0d89d" := by decide

/-! ## Path helpers (path/filepath and net/url collaborators) -/

/-- Models filepath.Join dir name for a dir without trailing slash and a clean name. -/
def joinPath (dir name : String) : String := dir ++ "/" ++ name

/-- Scan a reversed character list for the extension, as filepath.Ext does:
the suffix starting at the final dot of the final slash-separated element.
The accumulator holds the characters already passed, in original order. -/
def extScan : List Char → List Char → String
  | [], _ => ""
  | c :: rest, acc =>
    if c = '/' then ""
    else if c = '.' then String.mk ('.' :: acc)
    else extScan rest (c :: acc)

/-- Models filepath.Ext. -/
def pathExt (s : String) : String := extScan s.data.reverse []

/-- Models net/url URL.String for a URL with only Scheme, Host and Path set,
a nonempty host, and a path needing no percent-escaping: Go inserts a slash
between the host and a relative path. -/
def urlString (scheme host path : String) : String :=
  scheme ++ "://" ++ host ++ (if path ≠ "" ∧ ¬path.startsWith "/" then "/" else "") ++ path

/-! ## Filesystem model -/

/-- The filesystem is an association list from paths to contents; a later
write for the same path shadows the earlier one (first match wins, newest
entries are consed at the front). -/
abbrev FS := List (String × ByteL)

def fsFind : FS → String → Option ByteL
  | [], _ => none
  | (k, v) :: rest, p => if p = k then some v else fsFind rest p

def fsSet (fs : FS) (p : String) (b : ByteL) : FS := (p, b) :: fs

/-! ## The file store (store.get / store.set) -/

inductive StoreErr where
  | keyNotFound
  deriving DecidableEq, Repr

/-- Embeds store.get: stat the path, open it for reading; both a failed stat
and a failed open collapse to errKeyNotFound. In the filesystem-map model a
present file always opens. The per-key RLock around the reads is modelled by
the LockTable component below; get performs no filesystem mutation, so the
returned filesystem is the input one. -/
def storeGet (fs : FS) (path : String) : Except StoreErr ByteL × FS :=
  match fsFind fs path with
  | none => (Except.error StoreErr.keyNotFound, fs)
  | some b => (Except.ok b, fs)

/-! ## The per-key lock table (store.m, a sync.Map of RWMutex) -/

/-- Lock objects are identified by the counter value at their creation, so
distinct creations yield distinct identities, modelling pointer identity of
the RWMutex objects. -/
structure LockTable where
  entries : List (String × Nat)
  next : Nat
  deriving Repr

def ltInit : LockTable := ⟨[], 0⟩

def ltFind : List (String × Nat) → String → Option Nat
  | [], _ => none
  | (k, v) :: rest, p => if p = k then some v else ltFind rest p

/-- Embeds sync.Map.LoadOrStore as used in store.get and store.set: return
the existing lock for the key, or insert and return a fresh one. LoadOrStore
is atomic, so any concurrent execution is one of its sequential
interleavings, which this step function models. -/
def loadOrStore (t : LockTable) (k : String) : Nat × LockTable :=
  match ltFind t.entries k with
  | some i => (i, t)
  | none => (t.next, ⟨t.entries ++ [(k, t.next)], t.next + 1⟩)

/-- Run a sequence of store.get / store.set operations, each identified by
the key it locks, against the table. -/
def runOps (ops : List String) (t : LockTable) : LockTable :=
  match ops with
  | [] => t
  | k :: rest => runOps rest (loadOrStore t k).2

/-! ## The response writer (net/http semantics) -/

/-- State of an http.ResponseWriter: the header map stays mutable, but the
first body write (or an explicit WriteHeader) commits the response, sending
the status and a snapshot of the headers; later header changes are not sent. -/
structure RW where
  pending : List (String × String)
  committed : Bool
  status : Nat
  sent : List (String × String)
  body : ByteL
  deriving Repr

def rwInit : RW := ⟨[], false, 0, [], []⟩

/-- Header().Add. Header names are kept lowercase in this model. -/
def headerAdd (x : RW) (k v : String) : RW := { x with pending := x.pending ++ [(k, v)] }

/-- A body write; io.Copy only calls Write for a nonempty chunk, and the
first Write commits the response with implicit status 200. -/
def rwWrite (x : RW) (bs : ByteL) : RW :=
  if bs = [] then x
  else if x.committed then { x with body := x.body ++ bs }
  else { x with committed := true, status := 200, sent := x.pending, body := x.body ++ bs }

/-- WriteHeader: commits with the given status; a no-op once committed. -/
def writeHeader (x : RW) (code : Nat) : RW :=
  if x.committed then x else { x with committed := true, status := code, sent := x.pending }

/-- http.Error: set the plain-text content type headers, write the status,
then write the message followed by a newline. -/
def httpError (x : RW) (msg : String) (code : Nat) : RW :=
  rwWrite
    (writeHeader
      (headerAdd (headerAdd x "content-type" "text/plain; charset=utf-8") "x-content-type-options" "nosniff")
      code)
    (utf8Bytes (msg ++ "\n"))

/-- The sent response: if nothing ever committed, net/http sends an implicit
200 with the final header map at handler return. -/
structure Response where
  status : Nat
  headers : List (String × String)
  body : ByteL
  deriving Repr

def finalize (x : RW) : Response :=
  if x.committed then ⟨x.status, x.sent, x.body⟩ else ⟨200, x.pending, x.body⟩

/-- Embeds writeWebp from main.go: copy the bytes to the writer first, and
only then add the content-type header (the copy itself never fails in this
model: the client connection is not modelled as failing). -/
def writeWebp (x : RW) (bs : ByteL) : RW := headerAdd (rwWrite x bs) "content-type" "image/webp"

/-! ## The request handler -/

/-- Server configuration: the cache directory flag and the parsed original
URL (its scheme and host are the only parts the handler reads). -/
structure Config where
  cacheDir : String
  originScheme : String
  originHost : String

/-- An inbound request: URL.Path, URL.RawQuery, and the parsed form
URL.Query() of the raw query (parsing itself is a net/url collaborator;
Values.Get returns the first value for a key, which qget models below). -/
structure Request where
  path : String
  rawQuery : String
  query : List (String × String)

/-- url.Values.Get: first value for the key, or the empty string. -/
def qget : List (String × String) → String → String
  | [], _ => ""
  | (k, v) :: rest, key => if k = key then v else qget rest key

/-- Arguments of one cwebp invocation:
cwebp -quiet -q quality -resize width height src -o dest. -/
structure CwebpCall where
  quality : String
  width : String
  height : String
  src : String
  dest : String
  deriving DecidableEq, Repr

/-- The handler environment: the origin HTTP client (client.Get; an error
value is a transport-level failure, a result is any received response as
status code and full body) and the external cwebp tool (an error value is a
non-zero exit or timeout, a result is the bytes it writes to dest). -/
structure Env where
  fetch : String → Except String (Nat × ByteL)
  cwebp : CwebpCall → Except String ByteL

/-- Trace of the external effects one request performed. -/
structure Trace where
  fetches : List String
  cwebpCalls : List CwebpCall
  fsWrites : List (String × ByteL)
  deriving Repr

/-- The cache artifact path of a request: cacheDir/hex(sha1(path+rawQuery)).webp. -/
def webpPathOf (cfg : Config) (r : Request) : String :=
  joinPath cfg.cacheDir (fingerprint r.path r.rawQuery ++ ".webp")

/-- The scratch file path: same digest stem plus the extension of the url parameter. -/
def origPathOf (cfg : Config) (r : Request) : String :=
  joinPath cfg.cacheDir (fingerprint r.path r.rawQuery ++ pathExt (qget r.query "url"))

def widthOf (r : Request) : String := if qget r.query "w" = "" then "0" else qget r.query "w"

def heightOf (r : Request) : String := if qget r.query "h" = "" then "0" else qget r.query "h"

/-- The upstream URL: configured scheme and host plus the url parameter as
the path; no caller query parameter is forwarded. -/
def fullURLOf (cfg : Config) (r : Request) : String :=
  urlString cfg.originScheme cfg.originHost (qget r.query "url")

/-- The cwebp invocation the miss path issues (quality passed through with
no default; width and height defaulted to "0"). -/
def cwebpCallOf (cfg : Config) (r : Request) : CwebpCall :=
  ⟨qget r.query "q", widthOf r, heightOf r, origPathOf cfg r, webpPathOf cfg r⟩

/-- The miss path of the handler, entered once the cache lookup failed and
the url parameter proved nonempty: fetch the origin asset, stream its body
to the scratch file, run cwebp under store.set, re-open the artifact and
serve it. Any received HTTP response is used regardless of its status code. -/
def missPath (cfg : Config) (env : Env) (fs : FS) (r : Request) : Response × FS × Trace :=
  match env.fetch (fullURLOf cfg r) with
  | Except.error msg =>
    (finalize (httpError rwInit msg 500), fs, ⟨[fullURLOf cfg r], [], []⟩)
  | Except.ok (_status, body) =>
    let fs1 := fsSet fs (origPathOf cfg r) body
    match env.cwebp (cwebpCallOf cfg r) with
    | Except.error msg =>
      (finalize (httpError rwInit msg 500), fs1,
        ⟨[fullURLOf cfg r], [cwebpCallOf cfg r], [(origPathOf cfg r, body)]⟩)
    | Except.ok out =>
      let fs2 := fsSet fs1 (webpPathOf cfg r) out
      match fsFind fs2 (webpPathOf cfg r) with
      | none =>
        (finalize (httpError rwInit "open failed" 500), fs2,
          ⟨[fullURLOf cfg r], [cwebpCallOf cfg r], [(origPathOf cfg r, body), (webpPathOf cfg r, out)]⟩)
      | some served =>
        (finalize (writeWebp rwInit served), fs2,
          ⟨[fullURLOf cfg r], [cwebpCallOf cfg r], [(origPathOf cfg r, body), (webpPathOf cfg r, out)]⟩)

/-- Embeds handler from main.go: compute the cache key, try the cache and
serve on a hit; otherwise require a nonempty url parameter (else 400) and
run the miss path. Writing the hit response to the client is modelled as
always succeeding, so the fall-through after a failed client write is not
taken. -/
def handler (cfg : Config) (env : Env) (fs : FS) (r : Request) : Response × FS × Trace :=
  match (storeGet fs (webpPathOf cfg r)).1 with
  | Except.ok cached => (finalize (writeWebp rwInit cached), fs, ⟨[], [], []⟩)
  | Except.error _ =>
    if qget r.query "url" = "" then
      (finalize (httpError rwInit "query `url` is emptry" 400), fs, ⟨[], [], []⟩)
    else
      missPath cfg env fs r

/-! ## Shared helper lemmas -/

theorem serve_status (b : ByteL) : (finalize (writeWebp rwInit b)).status = 200 := by
  by_cases hb : b = [] <;> simp [finalize, writeWebp, headerAdd, rwWrite, rwInit, hb]

theorem serve_body (b : ByteL) : (finalize (writeWebp rwInit b)).body = b := by
  by_cases hb : b = [] <;> simp [finalize, writeWebp, headerAdd, rwWrite, rwInit, hb]

theorem serve_headers (b : ByteL) (hb : b ≠ []) : (finalize (writeWebp rwInit b)).headers = [] := by
  simp [finalize, writeWebp, headerAdd, rwWrite, rwInit, hb]

theorem errResp_status (msg : String) (code : Nat) :
    (finalize (httpError rwInit msg code)).status = code := by
  by_cases hb : utf8Bytes (msg ++ "\n") = [] <;>
    simp [finalize, httpError, writeHeader, headerAdd, rwWrite, rwInit, hb]

theorem qget_absent (l : List (String × String)) (key : String) (h : ∀ p ∈ l, p.1 ≠ key) :
    qget l key = "" := by
  induction l with
  | nil => rfl
  | cons p rest ih =>
    have h1 : p.1 ≠ key := h p (List.mem_cons_self p rest)
    cases p with
    | mk k v =>
      simp only [qget]
      rw [if_neg h1]
      exact ih fun q hq => h q (List.mem_cons_of_mem _ hq)

theorem ltFind_append (es es2 : List (String × Nat)) (k : String) :
    ltFind (es ++ es2) k =
      match ltFind es k with
      | some i => some i
      | none => ltFind es2 k := by
  induction es with
  | nil => simp [ltFind]
  | cons p rest ih =>
    cases p with
    | mk k2 v =>
      by_cases hk : k = k2 <;> simp [ltFind, hk, ih]

theorem ltFind_eq_none (es : List (String × Nat)) (k : String) :
    ltFind es k = none ↔ k ∉ es.map Prod.fst := by
  induction es with
  | nil => simp [ltFind]
  | cons p rest ih =>
    cases p with
    | mk k2 v =>
      by_cases hk : k = k2 <;> simp [ltFind, hk, ih, eq_comm]

theorem loadOrStore_nodup (t : LockTable) (k : String)
    (h : (t.entries.map Prod.fst).Nodup) :
    (((loadOrStore t k).2.entries).map Prod.fst).Nodup := by
  unfold loadOrStore
  cases hf : ltFind t.entries k with
  | some i => exact h
  | none =>
    have hnot : k ∉ t.entries.map Prod.fst := (ltFind_eq_none _ _).mp hf
    simp only [List.map_append, List.map_cons, List.map_nil]
    rw [List.nodup_append]
    refine ⟨h, List.nodup_singleton k, ?_⟩
    intro a ha hak
    rw [List.mem_singleton] at hak
    exact hnot (hak ▸ ha)

theorem loadOrStore_find_self (t : LockTable) (k : String) :
    ltFind (loadOrStore t k).2.entries k = some (loadOrStore t k).1 := by
  unfold loadOrStore
  cases hf : ltFind t.entries k with
  | some i => simpa using hf
  | none => simp [ltFind_append, hf, ltFind]

theorem loadOrStore_of_find (t : LockTable) (k : String) (i : Nat)
    (h : ltFind t.entries k = some i) : (loadOrStore t k).1 = i := by
  unfold loadOrStore
  rw [h]

theorem loadOrStore_preserves (t : LockTable) (k k2 : String) (i : Nat)
    (h : ltFind t.entries k = some i) :
    ltFind (loadOrStore t k2).2.entries k = some i := by
  unfold loadOrStore
  cases hf : ltFind t.entries k2 with
  | some j => simpa using h
  | none => simp [ltFind_append, h]

theorem runOps_preserves (ops : List String) (t : LockTable) (k : String) (i : Nat)
    (h : ltFind t.entries k = some i) :
    ltFind (runOps ops t).entries k = some i := by
  induction ops generalizing t with
  | nil => simpa [runOps] using h
  | cons o rest ih => exact ih _ (loadOrStore_preserves t k o i h)

theorem runOps_nodup (ops : List String) (t : LockTable)
    (h : (t.entries.map Prod.fst).Nodup) :
    (((runOps ops t).entries).map Prod.fst).Nodup := by
  induction ops generalizing t with
  | nil => simpa [runOps] using h
  | cons o rest ih => exact ih _ (loadOrStore_nodup t o h)

theorem runOps_append (ops more : List String) (t : LockTable) :
    runOps (ops ++ more) t = runOps more (runOps ops t) := by
  induction ops generalizing t with
  | nil => simp [runOps]
  | cons o rest ih => simp [runOps, ih]

theorem loadOrStore_isSome (t : LockTable) (k o : String) :
    (ltFind (loadOrStore t o).2.entries k).isSome ↔ (k = o ∨ (ltFind t.entries k).isSome) := by
  unfold loadOrStore
  cases hf : ltFind t.entries o with
  | some i =>
    simp only []
    constructor
    · intro h; exact Or.inr h
    · rintro (rfl | h)
      · simp [hf]
      · exact h
  | none =>
    simp only [ltFind_append]
    cases hk : ltFind t.entries k with
    | some i => simp
    | none =>
      by_cases hko : k = o
      · subst hko
        simp [ltFind]
      · simp [ltFind, hko]

theorem runOps_isSome (ops : List String) (t : LockTable) (k : String) :
    (ltFind (runOps ops t).entries k).isSome ↔ (k ∈ ops ∨ (ltFind t.entries k).isSome) := by
  induction ops generalizing t with
  | nil => simp [runOps]
  | cons o rest ih =>
    simp only [runOps]
    rw [ih, loadOrStore_isSome]
    constructor
    · rintro (h | h | h)
      · exact Or.inl (List.mem_cons_of_mem _ h)
      · exact Or.inl (h ▸ List.mem_cons_self o rest)
      · exact Or.inr h
    · rintro (h | h)
      · rcases List.mem_cons.mp h with rfl | h2
        · exact Or.inr (Or.inl rfl)
        · exact Or.inl h2
      · exact Or.inr (Or.inr h)

/-! ## Concrete fixtures used by the claim instances -/

def cfg0 : Config := ⟨"/cache", "http", "origin.example"⟩

def envFail : Env := ⟨fun _ => Except.error "connection refused", fun _ => Except.error "exit status 1"⟩

def env10 : Env := ⟨fun _ => Except.ok (404, [9, 9]), fun _ => Except.error "exit status 1"⟩

def rC1 : Request := ⟨"/one.png", "url=/one.png", [("url", "/one.png")]⟩

def fsC1 : FS := [(webpPathOf cfg0 rC1, [7, 8])]

def rC3 : Request := ⟨"/img/banner.png", "url=/img/banner.png", [("url", "/img/banner.png")]⟩

def fsC3 : FS := [(webpPathOf cfg0 rC3, [82, 73, 70, 70])]

def rC4hit : Request := ⟨"/four", "v=1", [("v", "1")]⟩

def fsC4 : FS := [(webpPathOf cfg0 rC4hit, [1, 2, 3])]

def rEmpty : Request := ⟨"/four-miss", "", []⟩

def rC5 : Request := ⟨"/five", "url=/a.png&w=10", [("url", "/a.png"), ("w", "10")]⟩

def rC6 : Request := ⟨"/six", "url=/b.jpg", [("url", "/b.jpg")]⟩

def rC9 : Request := ⟨"/nine", "v=2", [("v", "2")]⟩

def fsC9 : FS := [(webpPathOf cfg0 rC9, [9])]

def r10 : Request := ⟨"/ten", "url=/i.png", [("url", "/i.png")]⟩

/-! ## Claim theorems -/

/-- C1: when the cache artifact file for a request exists, the handler serves
the cached bytes with status 200, leaves the filesystem unchanged, and issues
no origin fetch, no cwebp invocation and no filesystem write. -/
theorem cacheHit_serves_without_fetch (cfg : Config) (env : Env) (fs : FS) (r : Request)
    (b : ByteL) (h : fsFind fs (webpPathOf cfg r) = some b) :
    (handler cfg env fs r).1.status = 200 ∧ (handler cfg env fs r).1.body = b
    ∧ (handler cfg env fs r).2.1 = fs
    ∧ (handler cfg env fs r).2.2.fetches = []
    ∧ (handler cfg env fs r).2.2.cwebpCalls = []
    ∧ (handler cfg env fs r).2.2.fsWrites = [] := by
  simp [handler, storeGet, h, serve_status, serve_body]

/-- C1 instance: a concrete cached request is served from the cache with no
external effect. -/
theorem cacheHit_serves_without_fetch_witness :
    (handler cfg0 envFail fsC1 rC1).1.status = 200
    ∧ (handler cfg0 envFail fsC1 rC1).1.body = [7, 8]
    ∧ (handler cfg0 envFail fsC1 rC1).2.1 = fsC1
    ∧ (handler cfg0 envFail fsC1 rC1).2.2.fetches = []
    ∧ (handler cfg0 envFail fsC1 rC1).2.2.cwebpCalls = []
    ∧ (handler cfg0 envFail fsC1 rC1).2.2.fsWrites = [] :=
  cacheHit_serves_without_fetch cfg0 envFail fsC1 rC1 [7, 8] (by simp [fsC1, fsFind])

/-- C2 counterexample: the key is the digest of the bare concatenation
path ++ rawQuery, so the structurally distinct pairs (/ab, c) and (/a, bc)
deterministically receive the same key, with no digest collision involved. -/
theorem fingerprint_concat_collision :
    fingerprint "/ab" "c" = fingerprint "/a" "bc"
    ∧ (("/ab", "c") : String × String) ≠ ("/a", "bc") := by
  constructor
  · decide
  · decide

/-- C2 amended: the fingerprint is deterministic and depends only on the
concatenation path ++ rawQuery, so any two pairs with equal concatenation
receive the same key; distinct concatenations yield distinct keys only up to
SHA-1 digest collision. -/
theorem fingerprint_depends_only_on_concat (p q p' q' : String) (h : p ++ q = p' ++ q') :
    fingerprint p q = fingerprint p' q' := by
  simp [fingerprint, h]

/-- C2 amended instance at a concrete equal-concatenation pair. -/
theorem fingerprint_depends_only_on_concat_witness :
    fingerprint "/x" "yz" = fingerprint "/xy" "z" :=
  fingerprint_depends_only_on_concat "/x" "yz" "/xy" "z" (by decide)

/-- C3: a successful cache-hit response at a concrete request has status 200
and the cached body, but its sent headers are empty: writeWebp adds the
content-type header only after the body copy has committed the response, so
image/webp is never sent (the net/http header map is frozen at first write). -/
theorem success_response_lacks_webp_header :
    (handler cfg0 envFail fsC3 rC3).1.status = 200
    ∧ (handler cfg0 envFail fsC3 rC3).1.body = [82, 73, 70, 70]
    ∧ (handler cfg0 envFail fsC3 rC3).1.headers = [] := by
  have h : fsFind fsC3 (webpPathOf cfg0 rC3) = some [82, 73, 70, 70] := by simp [fsC3, fsFind]
  simp [handler, storeGet, h, serve_status, serve_body, serve_headers]

/-- C4 counterexample: a request with no url parameter whose fingerprint path
is already cached is answered with status 200, not 400. -/
theorem emptyUrl_served_from_cache :
    qget rC4hit.query "url" = ""
    ∧ (handler cfg0 envFail fsC4 rC4hit).1.status ≠ 400 := by
  have h : fsFind fsC4 (webpPathOf cfg0 rC4hit) = some [1, 2, 3] := by simp [fsC4, fsFind]
  constructor
  · decide
  · simp [handler, storeGet, h, serve_status]

/-- C4 amended: when the cache lookup does not serve the request and the url
parameter is absent or empty, the handler responds 400, leaves the filesystem
unchanged, and issues no fetch and no cwebp invocation. -/
theorem emptyUrl_yields_400_on_miss (cfg : Config) (env : Env) (fs : FS) (r : Request)
    (hmiss : fsFind fs (webpPathOf cfg r) = none) (hurl : qget r.query "url" = "") :
    (handler cfg env fs r).1.status = 400
    ∧ (handler cfg env fs r).2.1 = fs
    ∧ (handler cfg env fs r).2.2.fetches = []
    ∧ (handler cfg env fs r).2.2.cwebpCalls = []
    ∧ (handler cfg env fs r).2.2.fsWrites = [] := by
  simp [handler, storeGet, hmiss, hurl, errResp_status]

/-- C4 amended instance: an uncached request with no query parameters gets a
400 with no effects. -/
theorem emptyUrl_yields_400_on_miss_witness :
    (handler cfg0 envFail [] rEmpty).1.status = 400
    ∧ (handler cfg0 envFail [] rEmpty).2.1 = []
    ∧ (handler cfg0 envFail [] rEmpty).2.2.fetches = []
    ∧ (handler cfg0 envFail [] rEmpty).2.2.cwebpCalls = []
    ∧ (handler cfg0 envFail [] rEmpty).2.2.fsWrites = [] :=
  emptyUrl_yields_400_on_miss cfg0 envFail [] rEmpty rfl rfl

/-- C5: on the miss path the one upstream URL fetched is built from the
configured origin scheme and host and the url parameter as the path, whatever
the other caller query parameters are; no caller query string is forwarded. -/
theorem upstream_url_from_origin_and_urlParam (cfg : Config) (env : Env) (fs : FS) (r : Request)
    (hmiss : fsFind fs (webpPathOf cfg r) = none) (hurl : qget r.query "url" ≠ "") :
    (handler cfg env fs r).2.2.fetches
      = [urlString cfg.originScheme cfg.originHost (qget r.query "url")] := by
  simp only [handler, storeGet, hmiss]
  rw [if_neg hurl]
  unfold missPath
  rcases hf : env.fetch (fullURLOf cfg r) with msg | ⟨st, body⟩
  · simp [fullURLOf]
  · rcases hc : env.cwebp (cwebpCallOf cfg r) with msg | out
    · simp [fullURLOf]
    · simp [fsSet, fsFind, fullURLOf]

/-- C5 instance: a concrete uncached request with extra parameters fetches
exactly the origin URL built from its url parameter. -/
theorem upstream_url_from_origin_and_urlParam_witness :
    (handler cfg0 envFail [] rC5).2.2.fetches = [urlString "http" "origin.example" "/a.png"] :=
  upstream_url_from_origin_and_urlParam cfg0 envFail [] rC5 rfl (by decide)

/-- C6: the origin fetch step fails the request (500, no scratch write, no
transform) exactly on transport-level failure; whenever any HTTP response is
received, the full body is written to the scratch path and the transform is
invoked, and the behaviour is identical for any upstream status code. -/
theorem fetch_transport_boundary (cfg : Config) (fs : FS) (r : Request)
    (fe : String → Except String (Nat × ByteL)) (cw : CwebpCall → Except String ByteL)
    (hmiss : fsFind fs (webpPathOf cfg r) = none) (hurl : qget r.query "url" ≠ "") :
    (∀ msg, fe (fullURLOf cfg r) = Except.error msg →
      (handler cfg ⟨fe, cw⟩ fs r).1.status = 500
      ∧ (handler cfg ⟨fe, cw⟩ fs r).2.2.fsWrites = []
      ∧ (handler cfg ⟨fe, cw⟩ fs r).2.2.cwebpCalls = [])
    ∧ (∀ st body, fe (fullURLOf cfg r) = Except.ok (st, body) →
      (origPathOf cfg r, body) ∈ (handler cfg ⟨fe, cw⟩ fs r).2.2.fsWrites
      ∧ (handler cfg ⟨fe, cw⟩ fs r).2.2.cwebpCalls = [cwebpCallOf cfg r])
    ∧ (∀ st st2 body,
        handler cfg ⟨fun _ => Except.ok (st, body), cw⟩ fs r
          = handler cfg ⟨fun _ => Except.ok (st2, body), cw⟩ fs r) := by
  refine ⟨?_, ?_, ?_⟩
  · intro msg hf
    simp [handler, storeGet, hmiss, hurl, missPath, hf, errResp_status]
  · intro st body hf
    simp only [handler, storeGet, hmiss]
    rw [if_neg hurl]
    unfold missPath
    simp only [hf]
    rcases hc : cw (cwebpCallOf cfg r) with m | out
    · simp
    · simp [fsSet, fsFind]
  · intro st st2 body
    simp only [handler, storeGet, hmiss]
    rw [if_neg hurl, if_neg hurl]
    unfold missPath
    rfl

/-- C6 instance: a received 404 response still has its body written to the
scratch path and still reaches the transform step. -/
theorem fetch_transport_boundary_witness :
    (origPathOf cfg0 rC6, [9, 9]) ∈ (handler cfg0 env10 [] rC6).2.2.fsWrites
    ∧ (handler cfg0 env10 [] rC6).2.2.cwebpCalls = [cwebpCallOf cfg0 rC6] :=
  (fetch_transport_boundary cfg0 [] rC6 env10.fetch env10.cwebp rfl (by decide)).2.1
    404 [9, 9] rfl

/-- C7: in the per-key lock table, after any sequence of get/set operations
from the fresh table, keys are unique (at most one lock object per key), a
key has an entry exactly when some operation named it, an entry once created
survives any further operations unchanged (never removed), and repeated
acquisitions for the same key return the same lock object; LoadOrStore is
atomic, so any concurrent racing pair is one of these sequentialisations. -/
theorem lockTable_one_lock_per_key (ops : List String) (k : String) :
    (((runOps ops ltInit).entries).map Prod.fst).Nodup
    ∧ ((ltFind (runOps ops ltInit).entries k).isSome ↔ k ∈ ops)
    ∧ (∀ more i, ltFind (runOps ops ltInit).entries k = some i →
        ltFind (runOps (ops ++ more) ltInit).entries k = some i)
    ∧ (∀ t, (loadOrStore (loadOrStore t k).2 k).1 = (loadOrStore t k).1) := by
  refine ⟨runOps_nodup ops ltInit (by simp [ltInit]), ?_, ?_, ?_⟩
  · rw [runOps_isSome]
    simp [ltInit, ltFind]
  · intro more i h
    rw [runOps_append]
    exact runOps_preserves more _ k i h
  · intro t
    exact loadOrStore_of_find _ k _ (loadOrStore_find_self t k)

/-- C7 instance: in a concrete operation sequence the second and any later
acquisition of the first key still find its original lock object. -/
theorem lockTable_one_lock_per_key_witness :
    ltFind (runOps (["a", "b", "a"] ++ ["c"]) ltInit).entries "a" = some 0 :=
  (lockTable_one_lock_per_key ["a", "b", "a"] "a").2.2.1 ["c"] 0 (by decide)

/-- C8: store.get returns the keyNotFound error exactly when the file is
absent (a failed stat and a failed open both collapse to that error);
otherwise it returns the file contents as an open read handle, and it leaves
the filesystem untouched. -/
theorem storeGet_notFound_iff (fs : FS) (p : String) :
    ((storeGet fs p).1 = Except.error StoreErr.keyNotFound ↔ fsFind fs p = none)
    ∧ (∀ b, fsFind fs p = some b → (storeGet fs p).1 = Except.ok b)
    ∧ (storeGet fs p).2 = fs := by
  cases h : fsFind fs p <;> simp [storeGet, h]

/-- C8 instance: getting a present concrete file returns its contents. -/
theorem storeGet_notFound_iff_witness :
    (storeGet [("a", [1])] "a").1 = Except.ok [1] :=
  (storeGet_notFound_iff [("a", [1])] "a").2.1 [1] (by decide)

/-- C9: the cache lookup runs before the url parameter is validated: a
request whose fingerprint path is cached is served with status 200 even when
its url parameter is absent or empty, and a 400 is only ever produced when
the cache lookup found nothing. -/
theorem cache_lookup_precedes_validation (cfg : Config) (env : Env) (fs : FS) (r : Request)
    (b : ByteL) (h : fsFind fs (webpPathOf cfg r) = some b) (hurl : qget r.query "url" = "") :
    ((handler cfg env fs r).1.status = 200 ∧ (handler cfg env fs r).1.body = b)
    ∧ (∀ fs2 r2, (handler cfg env fs2 r2).1.status = 400 →
        fsFind fs2 (webpPathOf cfg r2) = none) := by
  constructor
  · simp [handler, storeGet, h, serve_status, serve_body]
  · intro fs2 r2 h400
    cases hf : fsFind fs2 (webpPathOf cfg r2) with
    | none => rfl
    | some b2 =>
      exfalso
      have h200 : (handler cfg env fs2 r2).1.status = 200 := by
        simp [handler, storeGet, hf, serve_status]
      rw [h200] at h400
      omega

/-- C9 instance: a concrete cached request with no url parameter is served
with 200 and the cached bytes. -/
theorem cache_lookup_precedes_validation_witness :
    (handler cfg0 envFail fsC9 rC9).1.status = 200
    ∧ (handler cfg0 envFail fsC9 rC9).1.body = [9] :=
  (cache_lookup_precedes_validation cfg0 envFail fsC9 rC9 [9]
    (by simp [fsC9, fsFind]) (by decide)).1

/-- Every cwebp invocation the handler makes carries exactly the argument
vector cwebpCallOf built from the request. -/
theorem cwebpCalls_all_eq (cfg : Config) (env : Env) (fs : FS) (r : Request) :
    ∀ c ∈ (handler cfg env fs r).2.2.cwebpCalls, c = cwebpCallOf cfg r := by
  intro c
  unfold handler
  cases hsg : (storeGet fs (webpPathOf cfg r)).1 with
  | ok cached => simp
  | error e =>
    by_cases hu : qget r.query "url" = ""
    · simp [hu]
    · rw [if_neg hu]
      unfold missPath
      rcases hf : env.fetch (fullURLOf cfg r) with m | ⟨st, body⟩
      · simp
      · rcases hcw : env.cwebp (cwebpCallOf cfg r) with m | out
        · simp
        · simp [fsSet, fsFind]

/-- C10: unlike width and height, which default to "0" when absent, the
quality parameter has no default: when no q parameter is present, every
cwebp invocation of the request receives the empty string as its -q value. -/
theorem quality_passed_without_default (cfg : Config) (env : Env) (fs : FS) (r : Request)
    (hq : ∀ p ∈ r.query, p.1 ≠ "q") :
    ∀ c ∈ (handler cfg env fs r).2.2.cwebpCalls,
      c.quality = ""
      ∧ ((∀ p ∈ r.query, p.1 ≠ "w") → c.width = "0")
      ∧ ((∀ p ∈ r.query, p.1 ≠ "h") → c.height = "0") := by
  have hq0 : qget r.query "q" = "" := qget_absent r.query "q" hq
  intro c hc
  have hceq := cwebpCalls_all_eq cfg env fs r c hc
  subst hceq
  refine ⟨?_, ?_, ?_⟩
  · simpa [cwebpCallOf] using hq0
  · intro hw
    simp [cwebpCallOf, widthOf, qget_absent r.query "w" hw]
  · intro hh
    simp [cwebpCallOf, heightOf, qget_absent r.query "h" hh]

/-- C10 instance: the concrete transform call for a request without a q
parameter carries the empty quality string. -/
theorem quality_passed_without_default_witness :
    (cwebpCallOf cfg0 r10).quality = "" :=
  (quality_passed_without_default cfg0 env10 [] r10 (by decide) (cwebpCallOf cfg0 r10)
    (by simp [handler, storeGet, fsFind, missPath, env10, fsSet, r10, qget])).1
